import Mathlib

/-!
Verification of the Anchor claim-tracking pipeline against its
natural-language specification.

The definitions below are a shallow embedding of the Python sources under
`src/anchor/`.  Pure computations are translated into Lean functions; the
database session is replaced by explicit inputs (the rows an operator reads)
and outputs (the rows and field updates it writes).  Enumerations keep the
source's member names except where a name would collide with a Lean keyword
(`PARTIAL` is rendered `partialV`, `LogicCompleteness.PARTIAL` as `partialC`).
Definitions whose name starts with `spec` are transcribed from the spec's
words (spec.md) rather than from the code, for refinement comparisons.
-/

namespace Anchor

/-- Result of one fact evaluation (`EvaluationResult` in models.py). -/
inductive EvaluationResult where
  | TRUE
  | FALSE
  | UNCERTAIN
  | UNAVAILABLE
deriving DecidableEq, Repr

/-- Verdict of a conclusion or solution (`VerdictResult` in models.py).
The source member `PARTIAL` is rendered `partialV`. -/
inductive VerdictResult where
  | CONFIRMED
  | REFUTED
  | partialV
  | PENDING
  | EXPIRED
  | UNVERIFIABLE
deriving DecidableEq, Repr

/-- Status of a Fact row (`FactStatus` in models.py). -/
inductive FactStatus where
  | PENDING
  | VERIFIED_TRUE
  | VERIFIED_FALSE
  | UNVERIFIABLE
deriving DecidableEq, Repr

/-- Status of a Conclusion row (`ConclusionStatus` in models.py). -/
inductive ConclusionStatus where
  | PENDING
  | CONFIRMED
  | REFUTED
  | UNVERIFIABLE
deriving DecidableEq, Repr

/-- Status of a Solution row (`SolutionStatus` in models.py). -/
inductive SolutionStatus where
  | PENDING
  | VALIDATED
  | INVALIDATED
  | UNVERIFIABLE
deriving DecidableEq, Repr

/-- Logic completeness grade (`LogicCompleteness` in models.py).
The source member `PARTIAL` is rendered `partialC`. -/
inductive LogicCompleteness where
  | COMPLETE
  | partialC
  | WEAK
  | INVALID
deriving DecidableEq, Repr

/-! ## Verdict deriver (src/anchor/tracker/verdict_deriver.py)

`_derive` receives the supporting and assumption fact-id lists of the latest
inference Logic plus the map `{fact_id: latest EvaluationResult}`.  The
Python dict comprehensions `{fid: get_result(fid) for fid in ids}` keep one
entry per distinct id, so they are modelled by deduplicating the id list and
mapping the lookup over it. -/

/-- The lookup `evaluations.get(fact_id, EvaluationResult.UNAVAILABLE)`
inside `_derive` (`get_result`). -/
def getResult (evaluations : Nat → Option EvaluationResult) (factId : Nat) :
    EvaluationResult :=
  (evaluations factId).getD EvaluationResult.UNAVAILABLE

/-- Embedding of `_derive` (verdict_deriver.py lines 202-247): the verdict
branch chain over the latest evaluations of the referenced facts. -/
def derive (supportingIds assumptionIds : List Nat)
    (evaluations : Nat → Option EvaluationResult) : VerdictResult :=
  let res := getResult evaluations
  let supportingResults := supportingIds.dedup.map res
  let assumptionResults := assumptionIds.dedup.map res
  let allResults := supportingResults ++ assumptionResults
  if allResults ≠ [] ∧ ∀ r ∈ allResults, r = EvaluationResult.UNAVAILABLE then
    VerdictResult.UNVERIFIABLE
  else if ∃ r ∈ assumptionResults, r = EvaluationResult.FALSE then
    VerdictResult.REFUTED
  else if ∃ r ∈ supportingResults, r = EvaluationResult.FALSE then
    VerdictResult.REFUTED
  else if allResults ≠ [] ∧
      (∀ r ∈ allResults,
        r = EvaluationResult.TRUE ∨ r = EvaluationResult.UNAVAILABLE) ∧
      (∃ r ∈ allResults, r = EvaluationResult.TRUE) then
    VerdictResult.CONFIRMED
  else if ∃ r ∈ allResults, r = EvaluationResult.TRUE then
    VerdictResult.partialV
  else
    VerdictResult.PENDING

/-- Transcription of the spec's Op 6 rule table (spec.md section 4.7,
"Conclusion verdict"), applied in order over the referenced facts (the set
union of supporting and assumption ids), with a fact lacking an evaluation
counting as `UNAVAILABLE`. -/
def specVerdictTable (supportingIds assumptionIds : List Nat)
    (evaluations : Nat → Option EvaluationResult) : VerdictResult :=
  let res := getResult evaluations
  let referenced := (supportingIds ++ assumptionIds).dedup
  if ∀ f ∈ referenced, res f = EvaluationResult.UNAVAILABLE then
    VerdictResult.UNVERIFIABLE
  else if ∃ f ∈ assumptionIds, res f = EvaluationResult.FALSE then
    VerdictResult.REFUTED
  else if ∃ f ∈ supportingIds, res f = EvaluationResult.FALSE then
    VerdictResult.REFUTED
  else if (∀ f ∈ referenced,
        res f = EvaluationResult.TRUE ∨ res f = EvaluationResult.UNAVAILABLE) ∧
      (∃ f ∈ referenced, res f = EvaluationResult.TRUE) then
    VerdictResult.CONFIRMED
  else if (∃ f ∈ referenced, res f = EvaluationResult.TRUE) ∧
      ¬ (∃ f ∈ referenced, res f = EvaluationResult.FALSE) then
    VerdictResult.partialV
  else
    VerdictResult.PENDING

/-- Embedding of `_verdict_to_conclusion_status` (verdict_deriver.py lines
263-269): `mapping.get(verdict, ConclusionStatus.PENDING)`. -/
def verdictToConclusionStatus : VerdictResult → ConclusionStatus
  | VerdictResult.CONFIRMED => ConclusionStatus.CONFIRMED
  | VerdictResult.REFUTED => ConclusionStatus.REFUTED
  | VerdictResult.UNVERIFIABLE => ConclusionStatus.UNVERIFIABLE
  | _ => ConclusionStatus.PENDING

/-- Embedding of `_verdict_to_solution_status` (verdict_deriver.py lines
272-279): `mapping.get(verdict, SolutionStatus.PENDING)`. -/
def verdictToSolutionStatus : VerdictResult → SolutionStatus
  | VerdictResult.CONFIRMED => SolutionStatus.VALIDATED
  | VerdictResult.partialV => SolutionStatus.VALIDATED
  | VerdictResult.REFUTED => SolutionStatus.INVALIDATED
  | VerdictResult.UNVERIFIABLE => SolutionStatus.UNVERIFIABLE
  | _ => SolutionStatus.PENDING

/-- The Python guard `solution.monitoring_end and now < solution.monitoring_end`
(also used for conclusions): a `None` monitoring end is falsy, so the guard
holds only when the end is set and still in the future. -/
def monitoringNotReached (monitoringEnd : Option Int) (now : Int) : Bool :=
  match monitoringEnd with
  | some m => decide (now < m)
  | none => false

/-- The inference Logic row fields read by `derive_conclusion`. -/
structure InferenceLogic where
  supportingFactIds : List Nat
  assumptionFactIds : List Nat
deriving DecidableEq, Repr

/-- Embedding of `VerdictDeriver.derive_conclusion` (verdict_deriver.py lines
57-100).  Inputs: the conclusion's type string and monitoring end, the current
time, the latest inference Logic for the conclusion (`None` when absent), and
the latest evaluation per fact.  Output: `none` when the method returns with
no write, otherwise the written `ConclusionVerdict.verdict` together with the
updated `Conclusion.status`. -/
def deriveConclusion (conclusionType : String) (monitoringEnd : Option Int)
    (now : Int) (inferenceLogic : Option InferenceLogic)
    (evaluations : Nat → Option EvaluationResult) :
    Option (VerdictResult × ConclusionStatus) :=
  if conclusionType = "predictive" ∧ monitoringNotReached monitoringEnd now = true then
    none
  else
    match inferenceLogic with
    | none => none
    | some logic =>
        let verdict := derive logic.supportingFactIds logic.assumptionFactIds evaluations
        some (verdict, verdictToConclusionStatus verdict)

/-- Embedding of `_aggregate_solution_verdict` (verdict_deriver.py lines
250-260). -/
def aggregateSolutionVerdict (verdicts : List VerdictResult) : VerdictResult :=
  if ∀ v ∈ verdicts, v = VerdictResult.CONFIRMED then VerdictResult.CONFIRMED
  else if ∃ v ∈ verdicts, v = VerdictResult.REFUTED then VerdictResult.REFUTED
  else if ∃ v ∈ verdicts, v = VerdictResult.CONFIRMED then VerdictResult.partialV
  else if ∀ v ∈ verdicts, v = VerdictResult.UNVERIFIABLE then VerdictResult.UNVERIFIABLE
  else VerdictResult.PENDING

/-- Embedding of `VerdictDeriver.derive_solution` (verdict_deriver.py lines
102-162).  Inputs: the solution's status and monitoring end, the current time,
the `source_conclusion_ids` parsed from its derivation Logic (`[]` when the
Logic is absent or unparsable), and the list of `ConclusionVerdict.verdict`
values loaded for those conclusions.  Output: `none` when the method returns
with no write, otherwise the written `SolutionAssessment.verdict` together
with the updated `Solution.status`. -/
def deriveSolution (status : SolutionStatus) (monitoringEnd : Option Int)
    (now : Int) (sourceConclusionIds : List Nat)
    (sourceVerdicts : List VerdictResult) :
    Option (VerdictResult × SolutionStatus) :=
  if status ≠ SolutionStatus.PENDING then none
  else if monitoringNotReached monitoringEnd now = true then none
  else
    let verdict :=
      if sourceConclusionIds ≠ [] ∧ sourceVerdicts ≠ [] then
        aggregateSolutionVerdict sourceVerdicts
      else VerdictResult.PENDING
    some (verdict, verdictToSolutionStatus verdict)

/-! ## Fact verifier (src/anchor/tracker/condition_verifier.py)

`ConditionVerifier.verify` reads a Fact row, asks the LLM, and on a parsed
answer writes one `FactEvaluation` row and updates `Fact.status`.  The LLM
round trip (`_ask_llm` + `_parse_json`) is abstracted into an
`Option ParsedVerification` input: `none` when the call failed or its output
did not parse.  The parsed record's other fields (`confidence`,
`evidence_summary`, `authoritative_links`, ...) only feed the written rows'
text columns and never influence the status or the evaluation result, so only
the `result` field is modelled. -/

/-- The `result` field of the parsed verification JSON:
`parsed.get("result", "unavailable")` yields the default when the key is
absent, modelled by `Option String`. -/
structure ParsedVerification where
  result : Option String
deriving DecidableEq, Repr

/-- The alias table `_ALIAS = {"unverifiable": "unavailable", "unknown":
"unavailable"}` applied via `_ALIAS.get(result_str, result_str)`. -/
def resultAlias (s : String) : String :=
  if s = "unverifiable" ∨ s = "unknown" then "unavailable" else s

/-- The enum coercion `EvaluationResult(result_str)`: `none` models the
`ValueError` branch. -/
def evaluationResultOfString (s : String) : Option EvaluationResult :=
  if s = "true" then some EvaluationResult.TRUE
  else if s = "false" then some EvaluationResult.FALSE
  else if s = "uncertain" then some EvaluationResult.UNCERTAIN
  else if s = "unavailable" then some EvaluationResult.UNAVAILABLE
  else none

/-- Parsing of the `result` value in `verify` (condition_verifier.py lines
228-237): default `"unavailable"`, alias mapping, enum coercion with
`UNAVAILABLE` on an unknown value. -/
def parseResultValue (result : Option String) : EvaluationResult :=
  (evaluationResultOfString (resultAlias (result.getD "unavailable"))).getD
    EvaluationResult.UNAVAILABLE

/-- Embedding of `ConditionVerifier.verify` (condition_verifier.py lines
215-293) restricted to its status/evaluation effect.  Output: `none` when the
method returns without writing (non-verifiable fact, failed LLM call, or
unparsable output); otherwise the updated `Fact.status` paired with the list
of `FactEvaluation.result` values written (the method builds exactly one
`FactEvaluation`). -/
def verifyFact (isVerifiable : Bool) (status : FactStatus)
    (parsed : Option ParsedVerification) :
    Option (FactStatus × List EvaluationResult) :=
  if isVerifiable = false then none
  else
    match parsed with
    | none => none
    | some p =>
        let resultVal := parseResultValue p.result
        let newStatus :=
          match resultVal with
          | EvaluationResult.TRUE => FactStatus.VERIFIED_TRUE
          | EvaluationResult.FALSE => FactStatus.VERIFIED_FALSE
          | EvaluationResult.UNAVAILABLE => FactStatus.UNVERIFIABLE
          | EvaluationResult.UNCERTAIN => status
        some (newStatus, [resultVal])

/-! ## Scheduler pass (src/anchor/tracker/scheduler.py)

`TrackerScheduler._run_layer3_pipeline` is one straight-line body; the blocks
it executes are abstracted to operator tags in source order.  The Step 5 block
(lines 155-156) consists only of a comment saying the logic-relation mapper is
invoked by `run_pipeline_test` and skipped by the scheduler. -/

/-- The ten pipeline operators of spec.md section 4.7. -/
inductive PipelineOp where
  | authorProfiler
  | conditionVerifier
  | logicEvaluator
  | conclusionMonitor
  | solutionSimulator
  | logicRelationMapper
  | verdictDeriver
  | roleEvaluator
  | postQualityEvaluator
  | authorStatsUpdater
deriving DecidableEq, Repr

/-- The operator blocks executed by `_run_layer3_pipeline`, in the order they
appear in its body (scheduler.py lines 83-262).  Step 5 contributes no block:
its site holds only the comment at lines 155-156. -/
def schedulerPassOps : List PipelineOp :=
  [PipelineOp.authorProfiler, PipelineOp.conditionVerifier,
   PipelineOp.logicEvaluator, PipelineOp.conclusionMonitor,
   PipelineOp.solutionSimulator, PipelineOp.verdictDeriver,
   PipelineOp.roleEvaluator, PipelineOp.postQualityEvaluator,
   PipelineOp.authorStatsUpdater]

/-- The fixed ten-operator order of spec.md section 4.7 (Op 0 through Op 9,
with Op 5 between Op 4b and Op 6). -/
def specPipelineOps : List PipelineOp :=
  [PipelineOp.authorProfiler, PipelineOp.conditionVerifier,
   PipelineOp.logicEvaluator, PipelineOp.conclusionMonitor,
   PipelineOp.solutionSimulator, PipelineOp.logicRelationMapper,
   PipelineOp.verdictDeriver, PipelineOp.roleEvaluator,
   PipelineOp.postQualityEvaluator, PipelineOp.authorStatsUpdater]

/-! ## Author profiler (src/anchor/tracker/author_profiler.py)

`AuthorProfiler.profile` enriches an Author row.  The web-search/LLM round
trip is abstracted into a `ProfileOutcome`; note fields only feed string
columns, so the row keeps the fields the claims need. -/

/-- The Author columns `profile` reads and writes.  `credibilityTier` is
`Option Int` (`credibility_tier` is a nullable integer column, default
`None`). -/
structure AuthorRow where
  profileFetched : Bool
  credibilityTier : Option Int
  role : Option String
  expertiseAreas : Option String
  knownBiases : Option String
  profileNote : Option String
deriving DecidableEq, Repr

/-- Parsed profiler JSON.  `credibilityTier` is `none` when the
`credibility_tier` key is absent or not an `int` (the
`isinstance(tier, int)` test). -/
structure ParsedProfile where
  role : Option String
  expertiseAreas : Option String
  knownBiases : Option String
  profileNote : Option String
  credibilityTier : Option Int
deriving DecidableEq, Repr

/-- Outcome of the profiler's LLM round trip: the call failed
(`resp is None`), the response did not parse (`_parse_json` returned `None`),
or it parsed. -/
inductive ProfileOutcome where
  | llmFailed
  | parseFailed
  | parsed (p : ParsedProfile)
deriving DecidableEq, Repr

/-- Embedding of `AuthorProfiler.profile` (author_profiler.py lines 124-199)
plus `_mark_fetched` (lines 217-219): the resulting Author row.  On an
already-fetched author the method returns immediately; on a failed call or
unparsable output it only marks the author fetched; on success it writes the
profile fields, with tier 5 substituted for a missing or out-of-range tier. -/
def profileAuthor (a : AuthorRow) (outcome : ProfileOutcome) : AuthorRow :=
  if a.profileFetched then a
  else
    match outcome with
    | ProfileOutcome.llmFailed => { a with profileFetched := true }
    | ProfileOutcome.parseFailed => { a with profileFetched := true }
    | ProfileOutcome.parsed p =>
        let tier : Int :=
          match p.credibilityTier with
          | some t => if 1 ≤ t ∧ t ≤ 5 then t else 5
          | none => 5
        { profileFetched := true
          credibilityTier := some tier
          role := p.role
          expertiseAreas := p.expertiseAreas
          knownBiases := p.knownBiases
          profileNote := p.profileNote }

/-- Step 0 eligibility in the scheduler (scheduler.py lines 90-92):
`Author.profile_fetched == False`. -/
def profilerEligible (a : AuthorRow) : Prop :=
  a.profileFetched = false

/-! ## Author stats updater (src/anchor/tracker/author_stats_updater.py)

`AuthorStatsUpdater.update` gathers an author's rows and computes seven
dimension values plus an overall score.  The row-gathering joins are
abstracted into a `StatsInput` carrying the gathered lists; real-valued scores
are modelled over `ℚ`. -/

/-- The gathered rows `update` aggregates, restricted to the fields it reads.
`conclusionVerdicts` pairs each `ConclusionVerdict.verdict` with whether its
conclusion is predictive (`v.conclusion_id in predictive_ids`);
`inferenceCompleteness` is `logic_completeness` per inference Logic. -/
structure StatsInput where
  factEvals : List EvaluationResult
  conclusionVerdicts : List (Bool × VerdictResult)
  inferenceCompleteness : List (Option LogicCompleteness)
  solutionVerdicts : List VerdictResult
  uniquenessScores : List (Option ℚ)
  effectivenessScores : List (Option ℚ)

/-- `_RIGOR_SCORES` (author_stats_updater.py lines 44-49). -/
def rigorScore : LogicCompleteness → ℚ
  | LogicCompleteness.COMPLETE => 1
  | LogicCompleteness.partialC => 3 / 5
  | LogicCompleteness.WEAK => 3 / 10
  | LogicCompleteness.INVALID => 0

/-- `_UNDECIDED = {PENDING, EXPIRED}` (line 62). -/
def undecided (v : VerdictResult) : Bool :=
  v = VerdictResult.PENDING ∨ v = VerdictResult.EXPIRED

/-- Dimension 1, fact accuracy: `TRUE` count over evaluations whose result is
`TRUE` or `FALSE`; `None` when no evaluation is decided (lines 157-166). -/
def dimFactAccuracy (evals : List EvaluationResult) : Option ℚ :=
  let decided := evals.filter fun r =>
    r = EvaluationResult.TRUE ∨ r = EvaluationResult.FALSE
  if decided = [] then none
  else some (((decided.filter fun r => r = EvaluationResult.TRUE).length : ℚ) /
    (decided.length : ℚ))

/-- Dimensions 2 and 5 share this shape: `CONFIRMED` count over verdicts not
in `_UNDECIDED` (lines 168-174 and 195-201). -/
def dimConfirmedRate (verdicts : List VerdictResult) : Option ℚ :=
  let decided := verdicts.filter fun v => undecided v = false
  if decided = [] then none
  else some (((decided.filter fun v => v = VerdictResult.CONFIRMED).length : ℚ) /
    (decided.length : ℚ))

/-- Dimension 3, prediction accuracy: dimension 2 restricted to verdicts of
predictive conclusions (lines 176-185). -/
def dimPredictionAccuracy (verdicts : List (Bool × VerdictResult)) : Option ℚ :=
  dimConfirmedRate ((verdicts.filter fun p => p.1 = true).map fun p => p.2)

/-- Dimension 4, logic rigor: mean `_RIGOR_SCORES` value over inference
logics whose `logic_completeness` is set (lines 187-193). -/
def dimLogicRigor (completeness : List (Option LogicCompleteness)) : Option ℚ :=
  let assessed := completeness.filterMap id
  if assessed = [] then none
  else some ((assessed.map rigorScore).sum / (assessed.length : ℚ))

/-- Dimensions 6 and 7 share this shape: mean over the set scores
(lines 203-221). -/
def dimMean (scores : List (Option ℚ)) : Option ℚ :=
  let available := scores.filterMap id
  if available = [] then none
  else some (available.sum / (available.length : ℚ))

/-- The `metric_values` dict of `update` (lines 224-232) paired with
`_WEIGHTS` (lines 51-59), in dict insertion order: weights 0.20, 0.15, 0.20,
0.15, 0.15, 0.075, 0.075 as rationals. -/
def metricPairs (s : StatsInput) : List (ℚ × Option ℚ) :=
  [(1 / 5, dimFactAccuracy s.factEvals),
   (3 / 20, dimConfirmedRate (s.conclusionVerdicts.map fun p => p.2)),
   (1 / 5, dimPredictionAccuracy s.conclusionVerdicts),
   (3 / 20, dimLogicRigor s.inferenceCompleteness),
   (3 / 20, dimConfirmedRate s.solutionVerdicts),
   (3 / 40, dimMean s.uniquenessScores),
   (3 / 40, dimMean s.effectivenessScores)]

/-- The overall-score computation of `update` (lines 233-239): keep the
available metrics, sum their weights and weighted values, and scale
`weighted_sum / total_weight` by 100; `None` when nothing is available. -/
def overallScore (pairs : List (ℚ × Option ℚ)) : Option ℚ :=
  let available := pairs.filter fun p => p.2.isSome
  if available = [] then none
  else some ((available.map fun p => p.1 * p.2.getD 0).sum /
    (available.map fun p => p.1).sum * 100)

/-- The stored `AuthorStats.overall_credibility_score` for a gathered input. -/
def updateOverall (s : StatsInput) : Option ℚ :=
  overallScore (metricPairs s)

/-- Transcription of the spec's overall formula (spec.md section 4.10):
"Overall ∈ [0,100] = 100 × (Σ weight × value) / (Σ weight) over available
dims only... If no dims are available, overall is null", with an unavailable
dimension contributing nothing to either sum. -/
def specOverall (pairs : List (ℚ × Option ℚ)) : Option ℚ :=
  if ∀ p ∈ pairs, p.2 = none then none
  else some (100 *
    (pairs.map fun p => match p.2 with | some v => p.1 * v | none => 0).sum /
    (pairs.map fun p => if p.2 = none then 0 else p.1).sum)

/-! ## Post quality evaluator (src/anchor/tracker/post_quality_evaluator.py)

`PostQualityEvaluator._assess_uniqueness` reads the database through the
session; the rows it can touch are modelled as explicit tables.  Only the
fields the method reads are kept.  The loop over `unique_claims` with inner
row queries accumulates a set of author keys, a count and a running earliest
timestamp; since each Fact/Conclusion row carries one `canonical_claim`, a
row matches at most one of the (deduplicated) claims, so the accumulated
rows are the table rows matching any claim, and the set/count/minimum do not
depend on the iteration order. -/

/-- RawPost columns read by `_assess_uniqueness`. -/
structure RawPostRow where
  id : Nat
  url : String
  authorPlatformId : Option String
  authorName : String
  postedAt : Int
deriving DecidableEq, Repr

/-- Fact columns read by `_assess_uniqueness`. -/
structure FactRow where
  rawPostId : Option Nat
  canonicalClaim : Option String
deriving DecidableEq, Repr

/-- Conclusion columns read by `_assess_uniqueness`. -/
structure ConclusionRow where
  authorId : Nat
  sourceUrl : String
  canonicalClaim : Option String
  postedAt : Int
deriving DecidableEq, Repr

/-- The tables `_assess_uniqueness` queries. -/
structure Database where
  posts : List RawPostRow
  facts : List FactRow
  conclusions : List ConclusionRow
deriving Repr

/-- Python's `a or b` over an optional string and a string: `None` and the
empty string are falsy. -/
def pythonOr (a : Option String) (b : String) : String :=
  match a with
  | some s => if s = "" then b else s
  | none => b

/-- The `post_canonical_claims` collection (post_quality_evaluator.py lines
171-195): canonical claims of this post's Facts (by `raw_post_id`) then of
this author's Conclusions with this post's `source_url`; `if
fact.canonical_claim:` drops empty strings. -/
def postCanonicalClaims (db : Database) (post : RawPostRow) (authorId : Nat) :
    List String :=
  (db.facts.filterMap fun f =>
    match f.canonicalClaim with
    | some c => if f.rawPostId = some post.id ∧ c ≠ "" then some c else none
    | none => none) ++
  (db.conclusions.filterMap fun c =>
    match c.canonicalClaim with
    | some s =>
        if c.sourceUrl = post.url ∧ c.authorId = authorId ∧ s ≠ "" then some s
        else none
    | none => none)

/-- `select(RawPost).where(RawPost.id == ...)` followed by `.first()`. -/
def lookupPost (posts : List RawPostRow) (pid : Nat) : Option RawPostRow :=
  posts.find? fun p => p.id = pid

/-- The similar-Fact scan (lines 213-237): Facts with a matching canonical
claim from a different post, resolved to their RawPost, excluding posts with
this post's `author_platform_id`. -/
def factMatchPosts (db : Database) (post : RawPostRow) (claims : List String) :
    List RawPostRow :=
  db.facts.filterMap fun sf =>
    match sf.canonicalClaim, sf.rawPostId with
    | some c, some rid =>
        if c ∈ claims ∧ rid ≠ post.id then
          match lookupPost db.posts rid with
          | some rp =>
              if rp.authorPlatformId = post.authorPlatformId then none
              else some rp
          | none => none
        else none
    | _, _ => none

/-- The similar-Conclusion scan (lines 239-250): Conclusions with a matching
canonical claim from a different author. -/
def conclusionMatches (db : Database) (authorId : Nat) (claims : List String) :
    List ConclusionRow :=
  db.conclusions.filter fun sc =>
    (∃ c ∈ claims, sc.canonicalClaim = some c) ∧ sc.authorId ≠ authorId

/-- The keys accumulated into `other_author_keys`: fact matches contribute
`rp.author_platform_id or rp.author_name` (a string), conclusion matches
contribute `sc.author_id` (an integer); the two kinds never compare equal. -/
def uniquenessKeys (db : Database) (post : RawPostRow) (authorId : Nat)
    (claims : List String) : List (String ⊕ Nat) :=
  ((factMatchPosts db post claims).map fun rp =>
    Sum.inl (pythonOr rp.authorPlatformId rp.authorName)) ++
  ((conclusionMatches db authorId claims).map fun sc => Sum.inr sc.authorId)

/-- The `posted_at` values of all matched rows, feeding `earliest_other`. -/
def matchedTimes (db : Database) (post : RawPostRow) (authorId : Nat)
    (claims : List String) : List Int :=
  ((factMatchPosts db post claims).map fun rp => rp.postedAt) ++
  ((conclusionMatches db authorId claims).map fun sc => sc.postedAt)

/-- One step of the `earliest_other` accumulation: `if earliest_other is None
or t < earliest_other: earliest_other = t`. -/
def earliestStep (acc : Option Int) (t : Int) : Option Int :=
  match acc with
  | none => some t
  | some e => if t < e then some t else some e

/-- The `earliest_other` accumulation: start at `None`, replace when the next
`posted_at` is strictly smaller. -/
def earliestTime (times : List Int) : Option Int :=
  times.foldl earliestStep none

/-- Result record of `_assess_uniqueness` (the `uniqueness_note` strings are
not modelled). -/
structure UniquenessResult where
  score : ℚ
  isFirstMover : Bool
  similarClaimCount : Nat
  similarAuthorCount : Nat
deriving DecidableEq, Repr

/-- Embedding of `_assess_uniqueness` (post_quality_evaluator.py lines
160-282).  With no canonical claims the method returns score 0.5,
`is_first_mover=False` and zero counts (line 200); otherwise
`similar_author_count = len(other_author_keys)`,
`uniqueness_score = 1/(1 + 0.4·similar_author_count)` and
`is_first_mover = earliest_other is None or posted_at <= earliest_other`. -/
def assessUniqueness (db : Database) (post : RawPostRow) (authorId : Nat) :
    UniquenessResult :=
  let uniqueClaims := (postCanonicalClaims db post authorId).dedup
  if uniqueClaims = [] then
    { score := 1 / 2, isFirstMover := false
      similarClaimCount := 0, similarAuthorCount := 0 }
  else
    let fm := factMatchPosts db post uniqueClaims
    let cm := conclusionMatches db authorId uniqueClaims
    let count := (uniquenessKeys db post authorId uniqueClaims).dedup.length
    let firstMover :=
      match earliestTime (matchedTimes db post authorId uniqueClaims) with
      | none => true
      | some e => decide (post.postedAt ≤ e)
    { score := 1 / (1 + (2 / 5) * (count : ℚ))
      isFirstMover := firstMover
      similarClaimCount := fm.length + cm.length
      similarAuthorCount := count }

/-! ## Claim extractor (src/anchor/classifier/extractor.py)

`Extractor.extract` Step 1-3 (lines 115-213): Facts, Conclusions and
Solutions are inserted unconditionally and indexed by their 0-based local
position; Logics are then translated through the three `local_idx → db_id`
maps.  Database ids are modelled as the local indices themselves (each map is
an order-preserving bijection from `{0..n-1}`), so `fact_id_map` becomes the
partial function defined on indices `0 ≤ i < nFacts`. -/

/-- `ExtractedLogic` of schemas.py, as `extract` reads it.  Indices are `Int`
because they arrive from JSON and may be out of range in either direction. -/
structure ExtractedLogicRow where
  logicType : String
  targetIndex : Option Int
  supportingFactIndices : List Int
  assumptionFactIndices : List Int
  solutionIndex : Option Int
  sourceConclusionIndices : List Int
deriving DecidableEq, Repr

/-- Lookup in a `local_idx → db_id` map holding indices `0..count-1`
(`m.get(i)` / `i in m`). -/
def idMapLookup (count : Nat) (i : Int) : Option Nat :=
  if 0 ≤ i ∧ i < (count : Int) then some i.toNat else none

/-- A Logic row written by Step 3 of `extract`. -/
inductive LogicRow where
  | inference (conclusionId : Nat) (supportingFactIds assumptionFactIds : List Nat)
  | derivation (solutionId : Nat) (sourceConclusionIds : List Nat)
deriving DecidableEq, Repr

/-- The body of the Step 3 loop of `extract` (extractor.py lines 165-213) for
one Logic entry: the Logic row it inserts, or `none` when the entry is
skipped.  An unresolvable target index skips the Logic with a warning, while
unknown indices inside the fact / source lists are dropped by the
`if i in ...` comprehension filters. -/
def insertLogicEntry (nFacts nConclusions nSolutions : Nat)
    (el : ExtractedLogicRow) : Option LogicRow :=
  if el.logicType = "inference" then
    match el.targetIndex.bind (idMapLookup nConclusions) with
    | none => none
    | some cid =>
        some (LogicRow.inference cid
          (el.supportingFactIndices.filterMap (idMapLookup nFacts))
          (el.assumptionFactIndices.filterMap (idMapLookup nFacts)))
  else if el.logicType = "derivation" then
    match el.solutionIndex.bind (idMapLookup nSolutions) with
    | none => none
    | some sid =>
        some (LogicRow.derivation sid
          (el.sourceConclusionIndices.filterMap (idMapLookup nConclusions)))
  else none

/-- Step 3 of `extract`: the Logic rows written for the whole entry list. -/
def insertLogics (nFacts nConclusions nSolutions : Nat)
    (logics : List ExtractedLogicRow) : List LogicRow :=
  logics.filterMap (insertLogicEntry nFacts nConclusions nSolutions)

/-- Shape of a parsed extraction as Step 1-3 consume it: the three entity
counts plus the logic entries. -/
structure ExtractionShape where
  factCount : Nat
  conclusionCount : Nat
  solutionCount : Nat
  logics : List ExtractedLogicRow
deriving DecidableEq, Repr

/-- What Steps 1-3 of `extract` write for a relevant post: every Fact,
Conclusion and Solution of the parsed output, then the translated Logics. -/
structure ExtractionWrite where
  factCount : Nat
  conclusionCount : Nat
  solutionCount : Nat
  logicRows : List LogicRow
deriving DecidableEq, Repr

/-- Embedding of Steps 1-3 of `extract`: the entity inserts do not depend on
the Logic entries. -/
def extractGraphWrites (r : ExtractionShape) : ExtractionWrite :=
  { factCount := r.factCount
    conclusionCount := r.conclusionCount
    solutionCount := r.solutionCount
    logicRows := insertLogics r.factCount r.conclusionCount r.solutionCount r.logics }

/-- Whether a Logic entry's target resolves (the skip test of Step 3). -/
def targetResolves (r : ExtractionShape) (el : ExtractedLogicRow) : Bool :=
  if el.logicType = "inference" then
    (el.targetIndex.bind (idMapLookup r.conclusionCount)).isSome
  else if el.logicType = "derivation" then
    (el.solutionIndex.bind (idMapLookup r.solutionCount)).isSome
  else false

/-- A written Logic row references only existing rows: its target and every
listed id lie below the corresponding insert count. -/
def logicRowRefsValid (r : ExtractionShape) : LogicRow → Prop
  | LogicRow.inference cid sup ass =>
      cid < r.conclusionCount ∧ (∀ i ∈ sup, i < r.factCount) ∧
        ∀ i ∈ ass, i < r.factCount
  | LogicRow.derivation sid src =>
      sid < r.solutionCount ∧ ∀ i ∈ src, i < r.conclusionCount

/-- Initial status chosen by `_save_fact` (extractor.py line 287):
`PENDING if ef.is_verifiable else UNVERIFIABLE`. -/
def saveFactStatus (isVerifiable : Bool) : FactStatus :=
  if isVerifiable then FactStatus.PENDING else FactStatus.UNVERIFIABLE

/-- Step 1 eligibility in the scheduler (scheduler.py lines 100-113): a fact
enters verification only with `status == PENDING` and
`is_verifiable == True` (the validity-window filter narrows further). -/
def schedulerFactEligible (status : FactStatus) (isVerifiable : Bool) : Prop :=
  status = FactStatus.PENDING ∧ isVerifiable = true

/-! ## Concrete witness inputs -/

/-- A post by author A (platform id "a") at time 10. -/
def exPost8 : RawPostRow :=
  { id := 1, url := "u", authorPlatformId := some "a", authorName := "A",
    postedAt := 10 }

/-- A post by author B (platform id "b") at time 5. -/
def exPost8b : RawPostRow :=
  { id := 2, url := "v", authorPlatformId := some "b", authorName := "B",
    postedAt := 5 }

/-- A conclusion by author 2 sharing `exPost8`'s canonical claim. -/
def exConc8 : ConclusionRow :=
  { authorId := 2, sourceUrl := "v", canonicalClaim := some "x", postedAt := 7 }

/-- A database where `exPost8` (author 1) shares canonical claim "x" with
author B's post and author 2's conclusion. -/
def exDb8 : Database :=
  { posts := [exPost8, exPost8b]
    facts := [{ rawPostId := some 1, canonicalClaim := some "x" },
      { rawPostId := some 2, canonicalClaim := some "x" }]
    conclusions := [exConc8] }

/-- An inference Logic entry with a valid target but an unknown supporting
fact index 5. -/
def exLogic9 : ExtractedLogicRow :=
  { logicType := "inference", targetIndex := some 0,
    supportingFactIndices := [5], assumptionFactIndices := [],
    solutionIndex := none, sourceConclusionIndices := [] }

/-- An extraction with no facts, one conclusion and `exLogic9`. -/
def exShape9 : ExtractionShape :=
  { factCount := 0, conclusionCount := 1, solutionCount := 0,
    logics := [exLogic9] }

/-! ## Helper lemmas -/

/-- Membership in the deduplicated, evaluated result list of `_derive`
corresponds to an evaluated fact of the underlying id list. -/
theorem mem_dedup_map_iff (evals : Nat → Option EvaluationResult) (l : List Nat)
    (r : EvaluationResult) :
    r ∈ l.dedup.map (getResult evals) ↔ ∃ f ∈ l, getResult evals f = r := by
  simp [List.mem_map, List.mem_dedup]

/-! ## Claim C1 -/

/-- C1, counterexample: on an inference Logic that references no facts at
all, `_derive` yields `PENDING` while the spec rule table, whose first row
"All referenced facts UNAVAILABLE" is vacuously satisfied, yields
`UNVERIFIABLE`; so the deriver does not equal the table on every input. -/
theorem C1_counterexample_no_referenced_facts :
    derive [] [] (fun _ => none) = VerdictResult.PENDING ∧
    specVerdictTable [] [] (fun _ => none) = VerdictResult.UNVERIFIABLE ∧
    derive [] [] (fun _ => none) ≠ specVerdictTable [] [] (fun _ => none) := by
  decide

/-- C1, amended: whenever the inference Logic references at least one fact,
the verdict computed by `_derive` over the latest evaluation per referenced
fact (a fact with no evaluation counting as UNAVAILABLE) equals the spec rule
table applied in order: all referenced facts UNAVAILABLE ⇒ UNVERIFIABLE; any
assumption fact FALSE ⇒ REFUTED; any supporting fact FALSE ⇒ REFUTED; every
referenced fact TRUE or UNAVAILABLE with at least one TRUE ⇒ CONFIRMED; at
least one TRUE with no FALSE ⇒ PARTIAL; otherwise PENDING. -/
theorem C1_derive_matches_spec_table (sup ass : List Nat)
    (evals : Nat → Option EvaluationResult) (h : sup ++ ass ≠ []) :
    derive sup ass evals = specVerdictTable sup ass evals := by
  simp only [derive, specVerdictTable]
  set res := getResult evals with hresdef
  set SR := sup.dedup.map res with hSR
  set AR := ass.dedup.map res with hAR
  have memSR : ∀ r, r ∈ SR ↔ ∃ f ∈ sup, res f = r := fun r =>
    mem_dedup_map_iff evals sup r
  have memAR : ∀ r, r ∈ AR ↔ ∃ f ∈ ass, res f = r := fun r =>
    mem_dedup_map_iff evals ass r
  have memALL : ∀ r, r ∈ SR ++ AR ↔ ∃ f ∈ sup ++ ass, res f = r := by
    intro r
    rw [List.mem_append, memSR, memAR]
    constructor
    · rintro (⟨f, hf, he⟩ | ⟨f, hf, he⟩)
      · exact ⟨f, List.mem_append_left _ hf, he⟩
      · exact ⟨f, List.mem_append_right _ hf, he⟩
    · rintro ⟨f, hf, he⟩
      rcases List.mem_append.mp hf with hf | hf
      · exact Or.inl ⟨f, hf, he⟩
      · exact Or.inr ⟨f, hf, he⟩
  have hALLne : SR ++ AR ≠ [] := by
    rcases List.exists_mem_of_ne_nil _ h with ⟨f, hf⟩
    intro hnil
    have : res f ∈ SR ++ AR := (memALL (res f)).mpr ⟨f, hf, rfl⟩
    simp [hnil] at this
  by_cases h1 : ∀ f ∈ (sup ++ ass).dedup, res f = EvaluationResult.UNAVAILABLE
  · have d1 : SR ++ AR ≠ [] ∧ ∀ r ∈ SR ++ AR, r = EvaluationResult.UNAVAILABLE := by
      refine ⟨hALLne, fun r hr => ?_⟩
      rcases (memALL r).mp hr with ⟨f, hf, he⟩
      exact he ▸ h1 f (List.mem_dedup.mpr hf)
    rw [if_pos d1, if_pos h1]
  · have d1 : ¬(SR ++ AR ≠ [] ∧ ∀ r ∈ SR ++ AR, r = EvaluationResult.UNAVAILABLE) := by
      rintro ⟨-, hall⟩
      exact h1 fun f hf =>
        hall (res f) ((memALL (res f)).mpr ⟨f, List.mem_dedup.mp hf, rfl⟩)
    rw [if_neg d1, if_neg h1]
    by_cases h2 : ∃ f ∈ ass, res f = EvaluationResult.FALSE
    · have d2 : ∃ r ∈ AR, r = EvaluationResult.FALSE := by
        rcases h2 with ⟨f, hf, he⟩
        exact ⟨res f, (memAR (res f)).mpr ⟨f, hf, rfl⟩, he⟩
      rw [if_pos d2, if_pos h2]
    · have d2 : ¬∃ r ∈ AR, r = EvaluationResult.FALSE := by
        rintro ⟨r, hr, rfl⟩
        rcases (memAR _).mp hr with ⟨f, hf, he⟩
        exact h2 ⟨f, hf, he⟩
      rw [if_neg d2, if_neg h2]
      by_cases h3 : ∃ f ∈ sup, res f = EvaluationResult.FALSE
      · have d3 : ∃ r ∈ SR, r = EvaluationResult.FALSE := by
          rcases h3 with ⟨f, hf, he⟩
          exact ⟨res f, (memSR (res f)).mpr ⟨f, hf, rfl⟩, he⟩
        rw [if_pos d3, if_pos h3]
      · have d3 : ¬∃ r ∈ SR, r = EvaluationResult.FALSE := by
          rintro ⟨r, hr, rfl⟩
          rcases (memSR _).mp hr with ⟨f, hf, he⟩
          exact h3 ⟨f, hf, he⟩
        rw [if_neg d3, if_neg h3]
        by_cases h4 : (∀ f ∈ (sup ++ ass).dedup,
              res f = EvaluationResult.TRUE ∨ res f = EvaluationResult.UNAVAILABLE) ∧
            ∃ f ∈ (sup ++ ass).dedup, res f = EvaluationResult.TRUE
        · have d4 : SR ++ AR ≠ [] ∧
              (∀ r ∈ SR ++ AR,
                r = EvaluationResult.TRUE ∨ r = EvaluationResult.UNAVAILABLE) ∧
              ∃ r ∈ SR ++ AR, r = EvaluationResult.TRUE := by
            refine ⟨hALLne, fun r hr => ?_, ?_⟩
            · rcases (memALL r).mp hr with ⟨f, hf, he⟩
              exact he ▸ h4.1 f (List.mem_dedup.mpr hf)
            · rcases h4.2 with ⟨f, hf, he⟩
              exact ⟨res f, (memALL (res f)).mpr ⟨f, List.mem_dedup.mp hf, rfl⟩, he⟩
          rw [if_pos d4, if_pos h4]
        · have d4 : ¬(SR ++ AR ≠ [] ∧
              (∀ r ∈ SR ++ AR,
                r = EvaluationResult.TRUE ∨ r = EvaluationResult.UNAVAILABLE) ∧
              ∃ r ∈ SR ++ AR, r = EvaluationResult.TRUE) := by
            rintro ⟨-, hall, hex⟩
            refine h4 ⟨fun f hf => hall (res f)
              ((memALL (res f)).mpr ⟨f, List.mem_dedup.mp hf, rfl⟩), ?_⟩
            rcases hex with ⟨r, hr, rfl⟩
            rcases (memALL _).mp hr with ⟨f, hf, he⟩
            exact ⟨f, List.mem_dedup.mpr hf, he⟩
          rw [if_neg d4, if_neg h4]
          by_cases h5 : ∃ f ∈ (sup ++ ass).dedup, res f = EvaluationResult.TRUE
          · have s5 : (∃ f ∈ (sup ++ ass).dedup, res f = EvaluationResult.TRUE) ∧
                ¬∃ f ∈ (sup ++ ass).dedup, res f = EvaluationResult.FALSE := by
              refine ⟨h5, ?_⟩
              rintro ⟨f, hf, he⟩
              rcases List.mem_append.mp (List.mem_dedup.mp hf) with hf' | hf'
              · exact h3 ⟨f, hf', he⟩
              · exact h2 ⟨f, hf', he⟩
            have d5 : ∃ r ∈ SR ++ AR, r = EvaluationResult.TRUE := by
              rcases h5 with ⟨f, hf, he⟩
              exact ⟨res f, (memALL (res f)).mpr ⟨f, List.mem_dedup.mp hf, rfl⟩, he⟩
            rw [if_pos d5, if_pos s5]
          · have s5 : ¬((∃ f ∈ (sup ++ ass).dedup, res f = EvaluationResult.TRUE) ∧
                ¬∃ f ∈ (sup ++ ass).dedup, res f = EvaluationResult.FALSE) :=
              fun hc => h5 hc.1
            have d5 : ¬∃ r ∈ SR ++ AR, r = EvaluationResult.TRUE := by
              rintro ⟨r, hr, rfl⟩
              rcases (memALL _).mp hr with ⟨f, hf, he⟩
              exact h5 ⟨f, List.mem_dedup.mpr hf, he⟩
            rw [if_neg d5, if_neg s5]

/-- C1, witness: the amended theorem at one referenced fact evaluated TRUE. -/
theorem C1_derive_matches_spec_table_witness :
    ([1] ++ ([] : List Nat) ≠ []) ∧
    derive [1] [] (fun n => if n = 1 then some EvaluationResult.TRUE else none) =
      specVerdictTable [1] []
        (fun n => if n = 1 then some EvaluationResult.TRUE else none) :=
  ⟨by decide,
   C1_derive_matches_spec_table [1] []
     (fun n => if n = 1 then some EvaluationResult.TRUE else none) (by decide)⟩

/-! ## Claim C2 -/

/-- C2: a predictive Conclusion whose monitoring fields are unset
(`monitoring_end = None`) is not skipped by `derive_conclusion`: the guard
`conclusion.monitoring_end and now < conclusion.monitoring_end` is falsy for
`None`, so with an inference Logic over one TRUE fact the method writes a
`ConclusionVerdict` (CONFIRMED) and flips the status, where the spec
invariant demands no write at all. -/
theorem C2_predictive_unset_monitoring_still_derives :
    deriveConclusion "predictive" none 0
        (some { supportingFactIds := [1], assumptionFactIds := [] })
        (fun n => if n = 1 then some EvaluationResult.TRUE else none) =
      some (VerdictResult.CONFIRMED, ConclusionStatus.CONFIRMED) := by
  decide

/-! ## Claim C5 -/

/-- C5, counterexample: one scheduler pass does not execute all ten operators
of the spec order; the logic-relation mapper never appears in the pass. -/
theorem C5_counterexample_op5_missing :
    schedulerPassOps ≠ specPipelineOps ∧
    PipelineOp.logicRelationMapper ∉ schedulerPassOps := by
  decide

/-- C5, amended: a scheduler pass executes exactly nine of the ten pipeline
operators, in the spec's relative order, with Op 5 (the logic relation
mapper) removed — it is only invoked by the standalone pipeline test
driver. -/
theorem C5_scheduler_runs_nine_ops_in_order :
    schedulerPassOps = specPipelineOps.erase PipelineOp.logicRelationMapper ∧
    schedulerPassOps.Sublist specPipelineOps := by
  constructor
  · decide
  · simp [schedulerPassOps, specPipelineOps]

/-! ## Claim C3 -/

/-- C3: for a PENDING Solution past its `monitoring_end`, `derive_solution`
writes an assessment whose verdict follows the spec aggregation over the
source Conclusions' verdicts — all CONFIRMED ⇒ CONFIRMED; any REFUTED ⇒
REFUTED; any CONFIRMED (not all) ⇒ PARTIAL; all UNVERIFIABLE ⇒ UNVERIFIABLE;
otherwise PENDING — with PENDING when the DERIVATION Logic lists zero source
Conclusions, and updates the status via CONFIRMED/PARTIAL ⇒ VALIDATED,
REFUTED ⇒ INVALIDATED, UNVERIFIABLE ⇒ UNVERIFIABLE. -/
theorem C3_solution_verdict_aggregation (m now : Int) (ids : List Nat)
    (verdicts : List VerdictResult) (hpast : m ≤ now) :
    ∃ v st,
      deriveSolution SolutionStatus.PENDING (some m) now ids verdicts =
        some (v, st) ∧
      (ids = [] → v = VerdictResult.PENDING) ∧
      (ids ≠ [] → verdicts ≠ [] →
        (((∀ w ∈ verdicts, w = VerdictResult.CONFIRMED) →
            v = VerdictResult.CONFIRMED) ∧
         ((∃ w ∈ verdicts, w = VerdictResult.REFUTED) →
            v = VerdictResult.REFUTED) ∧
         ((∃ w ∈ verdicts, w = VerdictResult.CONFIRMED) →
            ¬(∀ w ∈ verdicts, w = VerdictResult.CONFIRMED) →
            ¬(∃ w ∈ verdicts, w = VerdictResult.REFUTED) →
            v = VerdictResult.partialV) ∧
         ((∀ w ∈ verdicts, w = VerdictResult.UNVERIFIABLE) →
            v = VerdictResult.UNVERIFIABLE) ∧
         (¬(∃ w ∈ verdicts, w = VerdictResult.CONFIRMED) →
            ¬(∃ w ∈ verdicts, w = VerdictResult.REFUTED) →
            ¬(∀ w ∈ verdicts, w = VerdictResult.UNVERIFIABLE) →
            v = VerdictResult.PENDING))) ∧
      ((v = VerdictResult.CONFIRMED ∨ v = VerdictResult.partialV) →
        st = SolutionStatus.VALIDATED) ∧
      (v = VerdictResult.REFUTED → st = SolutionStatus.INVALIDATED) ∧
      (v = VerdictResult.UNVERIFIABLE → st = SolutionStatus.UNVERIFIABLE) := by
  have hnl : ¬ now < m := not_lt.mpr hpast
  have hmon : monitoringNotReached (some m) now = false := by
    simp [monitoringNotReached, hnl]
  refine ⟨if ids ≠ [] ∧ verdicts ≠ [] then aggregateSolutionVerdict verdicts
      else VerdictResult.PENDING,
    verdictToSolutionStatus (if ids ≠ [] ∧ verdicts ≠ [] then
      aggregateSolutionVerdict verdicts else VerdictResult.PENDING),
    ?_, ?_, ?_, ?_, ?_, ?_⟩
  · simp [deriveSolution, hmon]
  · intro hids
    rw [if_neg]
    rintro ⟨h1, -⟩
    exact h1 hids
  · intro hids hverd
    rw [if_pos ⟨hids, hverd⟩]
    refine ⟨?_, ?_, ?_, ?_, ?_⟩
    · intro hall
      rw [aggregateSolutionVerdict, if_pos hall]
    · intro hex
      have hnall : ¬∀ w ∈ verdicts, w = VerdictResult.CONFIRMED := by
        rcases hex with ⟨w, hw, rfl⟩
        intro hall
        exact absurd (hall _ hw) (by decide)
      rw [aggregateSolutionVerdict, if_neg hnall, if_pos hex]
    · intro hexC hnall hnex
      rw [aggregateSolutionVerdict, if_neg hnall, if_neg hnex, if_pos hexC]
    · intro hallU
      rcases List.exists_mem_of_ne_nil _ hverd with ⟨w, hw⟩
      have hwU := hallU _ hw
      have hnall : ¬∀ x ∈ verdicts, x = VerdictResult.CONFIRMED := by
        intro hall
        have := hall _ hw
        rw [hwU] at this
        exact absurd this (by decide)
      have hnexR : ¬∃ x ∈ verdicts, x = VerdictResult.REFUTED := by
        rintro ⟨x, hx, rfl⟩
        have := hallU _ hx
        exact absurd this (by decide)
      have hnexC : ¬∃ x ∈ verdicts, x = VerdictResult.CONFIRMED := by
        rintro ⟨x, hx, rfl⟩
        have := hallU _ hx
        exact absurd this (by decide)
      rw [aggregateSolutionVerdict, if_neg hnall, if_neg hnexR, if_neg hnexC,
        if_pos hallU]
    · intro hnC hnR hnU
      have hnall : ¬∀ x ∈ verdicts, x = VerdictResult.CONFIRMED := by
        intro hall
        rcases List.exists_mem_of_ne_nil _ hverd with ⟨w, hw⟩
        exact hnC ⟨w, hw, hall _ hw⟩
      rw [aggregateSolutionVerdict, if_neg hnall, if_neg hnR, if_neg hnC,
        if_neg hnU]
  · rintro (hv | hv) <;> rw [hv] <;> rfl
  · intro hv
    rw [hv]
    rfl
  · intro hv
    rw [hv]
    rfl

/-- C3, witness: the theorem at one source conclusion judged CONFIRMED at
monitoring end 0 and current time 0. -/
theorem C3_solution_verdict_aggregation_witness :
    ((0 : Int) ≤ 0) ∧
    ∃ v st,
      deriveSolution SolutionStatus.PENDING (some 0) 0 [1]
          [VerdictResult.CONFIRMED] = some (v, st) ∧
      (([1] : List Nat) = [] → v = VerdictResult.PENDING) ∧
      (([1] : List Nat) ≠ [] → [VerdictResult.CONFIRMED] ≠ [] →
        (((∀ w ∈ [VerdictResult.CONFIRMED], w = VerdictResult.CONFIRMED) →
            v = VerdictResult.CONFIRMED) ∧
         ((∃ w ∈ [VerdictResult.CONFIRMED], w = VerdictResult.REFUTED) →
            v = VerdictResult.REFUTED) ∧
         ((∃ w ∈ [VerdictResult.CONFIRMED], w = VerdictResult.CONFIRMED) →
            ¬(∀ w ∈ [VerdictResult.CONFIRMED], w = VerdictResult.CONFIRMED) →
            ¬(∃ w ∈ [VerdictResult.CONFIRMED], w = VerdictResult.REFUTED) →
            v = VerdictResult.partialV) ∧
         ((∀ w ∈ [VerdictResult.CONFIRMED], w = VerdictResult.UNVERIFIABLE) →
            v = VerdictResult.UNVERIFIABLE) ∧
         (¬(∃ w ∈ [VerdictResult.CONFIRMED], w = VerdictResult.CONFIRMED) →
            ¬(∃ w ∈ [VerdictResult.CONFIRMED], w = VerdictResult.REFUTED) →
            ¬(∀ w ∈ [VerdictResult.CONFIRMED], w = VerdictResult.UNVERIFIABLE) →
            v = VerdictResult.PENDING))) ∧
      ((v = VerdictResult.CONFIRMED ∨ v = VerdictResult.partialV) →
        st = SolutionStatus.VALIDATED) ∧
      (v = VerdictResult.REFUTED → st = SolutionStatus.INVALIDATED) ∧
      (v = VerdictResult.UNVERIFIABLE → st = SolutionStatus.UNVERIFIABLE) :=
  ⟨by decide,
   C3_solution_verdict_aggregation 0 0 [1] [VerdictResult.CONFIRMED] (by decide)⟩

/-! ## Claim C4 -/

/-- C4: for a verifiable Fact whose verification LLM call succeeds and
parses, `verify` writes exactly one new `FactEvaluation` and maps the parsed
result to the status: true ⇒ VERIFIED_TRUE, false ⇒ VERIFIED_FALSE,
unavailable ⇒ UNVERIFIABLE, uncertain leaves the status unchanged — so a
PENDING fact stays PENDING and remains eligible for the next pass. -/
theorem C4_verify_status_mapping (st : FactStatus) (p : ParsedVerification) :
    (p.result = some "true" →
      verifyFact true st (some p) =
        some (FactStatus.VERIFIED_TRUE, [EvaluationResult.TRUE])) ∧
    (p.result = some "false" →
      verifyFact true st (some p) =
        some (FactStatus.VERIFIED_FALSE, [EvaluationResult.FALSE])) ∧
    (p.result = some "unavailable" →
      verifyFact true st (some p) =
        some (FactStatus.UNVERIFIABLE, [EvaluationResult.UNAVAILABLE])) ∧
    (p.result = some "uncertain" →
      verifyFact true st (some p) = some (st, [EvaluationResult.UNCERTAIN])) ∧
    (∀ out, verifyFact true st (some p) = some out → out.2.length = 1) ∧
    (st = FactStatus.PENDING → p.result = some "uncertain" →
      ∃ out, verifyFact true st (some p) = some out ∧
        schedulerFactEligible out.1 true) := by
  refine ⟨?_, ?_, ?_, ?_, ?_, ?_⟩
  · intro h
    simp [verifyFact, parseResultValue, resultAlias, evaluationResultOfString, h]
  · intro h
    simp [verifyFact, parseResultValue, resultAlias, evaluationResultOfString, h]
  · intro h
    simp [verifyFact, parseResultValue, resultAlias, evaluationResultOfString, h]
  · intro h
    simp [verifyFact, parseResultValue, resultAlias, evaluationResultOfString, h]
  · intro out h
    simp only [verifyFact, if_neg (by decide : ¬(true = false))] at h
    rw [Option.some_inj] at h
    rw [← h]
    rfl
  · intro hst h
    subst hst
    refine ⟨(FactStatus.PENDING, [EvaluationResult.UNCERTAIN]), ?_, rfl, rfl⟩
    simp [verifyFact, parseResultValue, resultAlias, evaluationResultOfString, h]

/-- C4, witness: the theorem at a PENDING fact with a parsed result
`"true"`. -/
theorem C4_verify_status_mapping_witness :
    verifyFact true FactStatus.PENDING (some { result := some "true" }) =
      some (FactStatus.VERIFIED_TRUE, [EvaluationResult.TRUE]) :=
  (C4_verify_status_mapping FactStatus.PENDING { result := some "true" }).1 rfl

/-! ## Claim C6 -/

/-- C6, counterexample: a fresh author (tier unset) whose profiler LLM call
fails is marked fetched but its `credibility_tier` stays `None`, not 5. -/
theorem C6_counterexample_failure_leaves_tier_unset :
    (profileAuthor
      { profileFetched := false, credibilityTier := none, role := none,
        expertiseAreas := none, knownBiases := none, profileNote := none }
      ProfileOutcome.llmFailed).profileFetched = true ∧
    (profileAuthor
      { profileFetched := false, credibilityTier := none, role := none,
        expertiseAreas := none, knownBiases := none, profileNote := none }
      ProfileOutcome.llmFailed).credibilityTier = none ∧
    (profileAuthor
      { profileFetched := false, credibilityTier := none, role := none,
        expertiseAreas := none, knownBiases := none, profileNote := none }
      ProfileOutcome.llmFailed).credibilityTier ≠ some 5 := by
  decide

/-- C6, amended: when the profiler's LLM call fails or its output fails to
parse, the author is still marked `profile_fetched=true` — so it is never
re-queried on later passes — but its `credibility_tier` is left unchanged
(unset for a fresh author) rather than set to 5; tier 5 is substituted only
when the LLM succeeds and returns a missing or out-of-range tier. -/
theorem C6_failure_marks_fetched_keeps_tier (a : AuthorRow) (o : ProfileOutcome)
    (hfetch : a.profileFetched = false)
    (hfail : o = ProfileOutcome.llmFailed ∨ o = ProfileOutcome.parseFailed) :
    (profileAuthor a o).profileFetched = true ∧
    (profileAuthor a o).credibilityTier = a.credibilityTier ∧
    ¬ profilerEligible (profileAuthor a o) := by
  rcases hfail with rfl | rfl <;>
    simp [profileAuthor, hfetch, profilerEligible]

/-- C6, witness: the amended theorem at a fresh author and a failed LLM
call. -/
theorem C6_failure_marks_fetched_keeps_tier_witness :
    (profileAuthor
      { profileFetched := false, credibilityTier := some 2, role := none,
        expertiseAreas := none, knownBiases := none, profileNote := none }
      ProfileOutcome.parseFailed).profileFetched = true ∧
    (profileAuthor
      { profileFetched := false, credibilityTier := some 2, role := none,
        expertiseAreas := none, knownBiases := none, profileNote := none }
      ProfileOutcome.parseFailed).credibilityTier = some 2 ∧
    ¬ profilerEligible (profileAuthor
      { profileFetched := false, credibilityTier := some 2, role := none,
        expertiseAreas := none, knownBiases := none, profileNote := none }
      ProfileOutcome.parseFailed) :=
  C6_failure_marks_fetched_keeps_tier _ _ rfl (Or.inr rfl)

/-! ## Claim C7 -/

/-- Summing the weighted values over the available metrics equals summing
with unavailable metrics contributing zero. -/
theorem sum_weighted_filter (l : List (ℚ × Option ℚ)) :
    ((l.filter fun p => p.2.isSome).map fun p => p.1 * p.2.getD 0).sum =
      (l.map fun p =>
        match p.2 with
        | some v => p.1 * v
        | none => 0).sum := by
  induction l with
  | nil => rfl
  | cons p t ih =>
      rcases p with ⟨w, v⟩
      cases v <;> simp [List.filter_cons, ih]

/-- Summing the weights over the available metrics equals summing with
unavailable metrics contributing zero weight. -/
theorem sum_weight_filter (l : List (ℚ × Option ℚ)) :
    ((l.filter fun p => p.2.isSome).map fun p => p.1).sum =
      (l.map fun p => if p.2 = none then 0 else p.1).sum := by
  induction l with
  | nil => rfl
  | cons p t ih =>
      rcases p with ⟨w, v⟩
      cases v <;> simp [List.filter_cons, ih]

/-- The `available` dict is empty exactly when every metric value is None. -/
theorem filter_isSome_eq_nil_iff (l : List (ℚ × Option ℚ)) :
    (l.filter fun p => p.2.isSome) = [] ↔ ∀ p ∈ l, p.2 = none := by
  rw [List.filter_eq_nil_iff]
  constructor
  · intro h p hp
    have := h p hp
    exact Option.not_isSome_iff_eq_none.mp (by simpa using this)
  · intro h p hp
    simp [h p hp]

/-- The overall-score computation of `update` agrees with the spec's
renormalized weighted-mean formula on every weight/value list. -/
theorem overallScore_eq_specOverall (l : List (ℚ × Option ℚ)) :
    overallScore l = specOverall l := by
  unfold overallScore specOverall
  by_cases h : ∀ p ∈ l, p.2 = none
  · rw [if_pos ((filter_isSome_eq_nil_iff l).mpr h), if_pos h]
  · rw [if_neg fun hn => h ((filter_isSome_eq_nil_iff l).mp hn), if_neg h]
    rw [sum_weighted_filter, sum_weight_filter]
    congr 1
    ring

/-- C7: for every gathered input, the stored overall credibility score equals
100 times the weighted mean of the available dimension values only, with base
weights 0.20, 0.15, 0.20, 0.15, 0.15, 0.075, 0.075, missing dimensions
dropped and the remaining weights renormalized; it is null when no dimension
has data; and with only fact accuracy available at value 0.8 (four TRUE
evaluations and one FALSE) the score is 80. -/
theorem C7_overall_weighted_mean :
    (∀ s : StatsInput, updateOverall s = specOverall (metricPairs s)) ∧
    updateOverall
      { factEvals := [EvaluationResult.TRUE, EvaluationResult.TRUE,
          EvaluationResult.TRUE, EvaluationResult.TRUE, EvaluationResult.FALSE],
        conclusionVerdicts := [], inferenceCompleteness := [],
        solutionVerdicts := [], uniquenessScores := [],
        effectivenessScores := [] } = some 80 ∧
    updateOverall
      { factEvals := [], conclusionVerdicts := [], inferenceCompleteness := [],
        solutionVerdicts := [], uniquenessScores := [],
        effectivenessScores := [] } = none := by
  have hdec : (decide (EvaluationResult.FALSE = EvaluationResult.TRUE)) = false := rfl
  have hd : dimFactAccuracy
      [EvaluationResult.TRUE, EvaluationResult.TRUE, EvaluationResult.TRUE,
        EvaluationResult.TRUE, EvaluationResult.FALSE] = some (4 / 5) := by
    rw [dimFactAccuracy]
    norm_num [List.filter, hdec]
    exact fun h => absurd h (List.cons_ne_nil _ _)
  have hcr : dimConfirmedRate [] = none := rfl
  have hpa : dimPredictionAccuracy [] = none := rfl
  have hlr : dimLogicRigor [] = none := rfl
  have hdm : dimMean [] = none := rfl
  refine ⟨fun s => overallScore_eq_specOverall (metricPairs s), ?_, rfl⟩
  rw [updateOverall, metricPairs]
  simp only [List.map_nil]
  rw [hd, hcr, hpa, hlr, hdm, overallScore]
  norm_num [List.filter]

/-! ## Claim C8 -/

/-- The `earliest_other` fold is bounded below by `now` exactly when every
scanned time and the accumulator are. -/
theorem foldl_earliest_le_iff (times : List Int) (acc : Option Int) (now : Int) :
    (match times.foldl earliestStep acc with
     | none => True
     | some e => now ≤ e) ↔
    ((∀ t ∈ times, now ≤ t) ∧
      (match acc with
       | none => True
       | some a => now ≤ a)) := by
  induction times generalizing acc with
  | nil => simp
  | cons t ts ih =>
      rw [List.foldl_cons, ih]
      cases acc with
      | none =>
          simp only [earliestStep, List.forall_mem_cons]
          tauto
      | some e =>
          by_cases hlt : t < e
          · simp only [earliestStep, if_pos hlt, List.forall_mem_cons]
            constructor
            · rintro ⟨h1, h2⟩
              exact ⟨⟨h2, h1⟩, by omega⟩
            · rintro ⟨⟨h2, h1⟩, h3⟩
              exact ⟨h1, h2⟩
          · simp only [earliestStep, if_neg hlt, List.forall_mem_cons]
            constructor
            · rintro ⟨h1, h2⟩
              exact ⟨⟨by omega, h1⟩, h2⟩
            · rintro ⟨⟨h2, h1⟩, h3⟩
              exact ⟨h1, h3⟩

/-- The first-mover test `earliest_other is None or posted_at <=
earliest_other` holds exactly when no matched row is strictly earlier. -/
theorem firstMover_iff (times : List Int) (now : Int) :
    (match earliestTime times with
     | none => true
     | some e => decide (now ≤ e)) = true ↔ ∀ t ∈ times, ¬ t < now := by
  have haux := foldl_earliest_le_iff times none now
  rw [earliestTime]
  cases hE : times.foldl earliestStep none with
  | none =>
      rw [hE] at haux
      simp only [true_iff] at haux ⊢
      simp at haux
      intro t ht
      exact not_lt.mpr (haux t ht)
  | some e =>
      rw [hE] at haux
      simp only [and_true] at haux
      simp only [decide_eq_true_iff]
      rw [haux]
      constructor
      · intro h t ht
        exact not_lt.mpr (h t ht)
      · intro h t ht
        exact not_lt.mp (h t ht)

/-- C8, counterexample: a post from which no canonical claim was extracted
has zero similar authors, yet `_assess_uniqueness` returns score 0.5 (not
1.0) and `is_first_mover = False` (not True), via its early return. -/
theorem C8_counterexample_no_claims :
    assessUniqueness { posts := [], facts := [], conclusions := [] }
        { id := 1, url := "u", authorPlatformId := none, authorName := "a",
          postedAt := 0 } 1 =
      { score := 1 / 2, isFirstMover := false, similarClaimCount := 0,
        similarAuthorCount := 0 } ∧
    (1 / 2 : ℚ) ≠ 1 := by
  constructor
  · rfl
  · norm_num

/-- C8, amended: for a post with at least one canonical claim,
`uniqueness_score = 1/(1 + 0.4·similar_author_count)` where
`similar_author_count` counts distinct author keys over rows sharing an
identical canonical claim (a matching Fact contributes its post's author
platform id — or author name when that is unset — and a matching Conclusion
contributes its author id), `is_first_mover` holds exactly when no matched
row was posted strictly earlier than this post, and with zero similar
authors the score is 1 and `is_first_mover` is true.  A post with no
canonical claims instead gets score 0.5, `is_first_mover = False` and zero
counts. -/
theorem C8_uniqueness_formula (db : Database) (post : RawPostRow)
    (authorId : Nat) (h : (postCanonicalClaims db post authorId).dedup ≠ []) :
    (assessUniqueness db post authorId).score =
      1 / (1 + (2 / 5) *
        ((assessUniqueness db post authorId).similarAuthorCount : ℚ)) ∧
    (assessUniqueness db post authorId).similarAuthorCount =
      (uniquenessKeys db post authorId
        (postCanonicalClaims db post authorId).dedup).dedup.length ∧
    ((assessUniqueness db post authorId).isFirstMover = true ↔
      ∀ t ∈ matchedTimes db post authorId
          (postCanonicalClaims db post authorId).dedup,
        ¬ t < post.postedAt) ∧
    ((assessUniqueness db post authorId).similarAuthorCount = 0 →
      (assessUniqueness db post authorId).score = 1 ∧
      (assessUniqueness db post authorId).isFirstMover = true) := by
  unfold assessUniqueness
  rw [if_neg h]
  dsimp only
  refine ⟨rfl, rfl, firstMover_iff _ _, ?_⟩
  intro hzero
  have hkeys : (uniquenessKeys db post authorId
      (postCanonicalClaims db post authorId).dedup).dedup = [] :=
    List.length_eq_zero.mp hzero
  have hkeys2 : uniquenessKeys db post authorId
      (postCanonicalClaims db post authorId).dedup = [] :=
    (List.dedup_eq_nil _).mp hkeys
  rw [uniquenessKeys] at hkeys2
  obtain ⟨ha, hb⟩ := List.append_eq_nil.mp hkeys2
  have hfm := List.map_eq_nil_iff.mp ha
  have hcm := List.map_eq_nil_iff.mp hb
  have htimes : matchedTimes db post authorId
      (postCanonicalClaims db post authorId).dedup = [] := by
    rw [matchedTimes, hfm, hcm]
    rfl
  constructor
  · rw [hzero]
    norm_num
  · rw [htimes]
    rfl

/-- C8, witness: the amended theorem on a database where two other authors
share the post's canonical claim. -/
theorem C8_uniqueness_formula_witness :
    ((postCanonicalClaims exDb8 exPost8 1).dedup ≠ []) ∧
    (assessUniqueness exDb8 exPost8 1).score =
      1 / (1 + (2 / 5) *
        ((assessUniqueness exDb8 exPost8 1).similarAuthorCount : ℚ)) :=
  ⟨by decide, (C8_uniqueness_formula exDb8 exPost8 1 (by decide)).1⟩

/-! ## Claim C9 -/

/-- A `filterMap` writes as many rows as entries whose translation
succeeds. -/
theorem filterMap_length_eq_filter_isSome {α β : Type} (f : α → Option β)
    (l : List α) :
    (l.filterMap f).length = (l.filter fun a => (f a).isSome).length := by
  induction l with
  | nil => rfl
  | cons a t ih =>
      cases h : f a <;> simp [List.filterMap_cons, List.filter_cons, h, ih]

/-- A Logic entry produces a row exactly when its target index resolves. -/
theorem insertLogicEntry_isSome (r : ExtractionShape) (el : ExtractedLogicRow) :
    (insertLogicEntry r.factCount r.conclusionCount r.solutionCount el).isSome =
      targetResolves r el := by
  unfold insertLogicEntry targetResolves
  by_cases h1 : el.logicType = "inference"
  · rw [if_pos h1, if_pos h1]
    cases el.targetIndex.bind (idMapLookup r.conclusionCount) <;> rfl
  · rw [if_neg h1, if_neg h1]
    by_cases h2 : el.logicType = "derivation"
    · rw [if_pos h2, if_pos h2]
      cases el.solutionIndex.bind (idMapLookup r.solutionCount) <;> rfl
    · rw [if_neg h2, if_neg h2]
      rfl

/-- A successful id-map lookup yields an id below the insert count. -/
theorem idMapLookup_lt (count : Nat) (i : Int) (j : Nat)
    (h : idMapLookup count i = some j) : j < count := by
  rw [idMapLookup] at h
  split_ifs at h with hc
  injection h with h
  omega

/-- Every id surviving the index-translation filter is below the insert
count. -/
theorem mem_filterMap_idMapLookup (count : Nat) (l : List Int) (j : Nat)
    (h : j ∈ l.filterMap (idMapLookup count)) : j < count := by
  rcases List.mem_filterMap.mp h with ⟨i, -, hi⟩
  exact idMapLookup_lt _ _ _ hi

/-- C9, counterexample: an inference Logic whose target resolves but whose
supporting list references the unknown fact index 5 is not skipped — it is
written with the unknown reference silently dropped — contradicting the claim
that any Logic referencing an unknown local index is skipped. -/
theorem C9_counterexample_unknown_fact_index_kept :
    insertLogics 0 1 0 [exLogic9] = [LogicRow.inference 0 [] []] ∧
    [LogicRow.inference 0 [] []] ≠ ([] : List LogicRow) := by
  constructor
  · rfl
  · decide

/-- C9, amended: extraction writes all Facts, Conclusions and Solutions
regardless of the Logic entries; a Logic entry is skipped (with a warning)
exactly when its target index — the conclusion index for inference, the
solution index for derivation — is missing or unknown, while unknown indices
inside the supporting/assumption/source lists are silently dropped with the
Logic still written; and no written Logic row ever dangles: every id it
carries refers to an inserted row. -/
theorem C9_target_skip_no_dangling (r : ExtractionShape) :
    (extractGraphWrites r).factCount = r.factCount ∧
    (extractGraphWrites r).conclusionCount = r.conclusionCount ∧
    (extractGraphWrites r).solutionCount = r.solutionCount ∧
    (extractGraphWrites r).logicRows.length =
      (r.logics.filter (targetResolves r)).length ∧
    (∀ row ∈ (extractGraphWrites r).logicRows, logicRowRefsValid r row) := by
  refine ⟨rfl, rfl, rfl, ?_, ?_⟩
  · show (insertLogics r.factCount r.conclusionCount r.solutionCount
      r.logics).length = _
    rw [insertLogics, filterMap_length_eq_filter_isSome]
    congr 1
    apply List.filter_congr
    intro el _
    exact insertLogicEntry_isSome r el
  · intro row hrow
    rcases List.mem_filterMap.mp hrow with ⟨el, -, hel⟩
    rw [insertLogicEntry] at hel
    split_ifs at hel with h1 h2
    · cases hb : el.targetIndex.bind (idMapLookup r.conclusionCount) with
      | none => rw [hb] at hel; cases hel
      | some cid =>
          rw [hb] at hel
          injection hel with hel
          rw [← hel]
          rcases Option.bind_eq_some.mp hb with ⟨ti, -, hlook⟩
          exact ⟨idMapLookup_lt _ _ _ hlook,
            fun i hi => mem_filterMap_idMapLookup _ _ _ hi,
            fun i hi => mem_filterMap_idMapLookup _ _ _ hi⟩
    · cases hb : el.solutionIndex.bind (idMapLookup r.solutionCount) with
      | none => rw [hb] at hel; cases hel
      | some sid =>
          rw [hb] at hel
          injection hel with hel
          rw [← hel]
          rcases Option.bind_eq_some.mp hb with ⟨ti, -, hlook⟩
          exact ⟨idMapLookup_lt _ _ _ hlook,
            fun i hi => mem_filterMap_idMapLookup _ _ _ hi⟩

/-- C9, witness: the amended theorem's no-dangling clause at the concrete
extraction `exShape9`, whose single written row is `inference 0 [] []`. -/
theorem C9_target_skip_no_dangling_witness :
    logicRowRefsValid exShape9 (LogicRow.inference 0 [] []) :=
  (C9_target_skip_no_dangling exShape9).2.2.2.2 _ (by decide)

/-! ## Claim C10 -/

/-- C10: a Fact is created PENDING exactly when `is_verifiable` is true and
UNVERIFIABLE otherwise; a non-verifiable fact is never eligible for the
scheduler's verification step and is refused by the verifier itself; and a
fact with no evaluation contributes UNAVAILABLE to verdict derivation. -/
theorem C10_nonverifiable_fact_flow (b : Bool) :
    (saveFactStatus b = FactStatus.PENDING ↔ b = true) ∧
    (b = false →
      saveFactStatus b = FactStatus.UNVERIFIABLE ∧
      ¬ schedulerFactEligible (saveFactStatus b) b ∧
      ∀ (st : FactStatus) (parsed : Option ParsedVerification),
        verifyFact b st parsed = none) ∧
    (∀ (evals : Nat → Option EvaluationResult) (fid : Nat),
      evals fid = none → getResult evals fid = EvaluationResult.UNAVAILABLE) := by
  refine ⟨?_, ?_, ?_⟩
  · cases b <;> simp [saveFactStatus]
  · rintro rfl
    refine ⟨rfl, ?_, ?_⟩
    · rintro ⟨-, h2⟩
      cases h2
    · intro st parsed
      rfl
  · intro evals fid h
    simp [getResult, h]

/-- C10, witness: the theorem at a non-verifiable fact and an evaluation map
with no entry for fact 3. -/
theorem C10_nonverifiable_fact_flow_witness :
    saveFactStatus false = FactStatus.UNVERIFIABLE ∧
    getResult (fun _ => none) 3 = EvaluationResult.UNAVAILABLE :=
  ⟨((C10_nonverifiable_fact_flow false).2.1 rfl).1,
   (C10_nonverifiable_fact_flow false).2.2 (fun _ => none) 3 rfl⟩

end Anchor
